import Mathlib

/-!
Shallow embedding of the polymorphic-shape configuration decoders
(package `yaml`: `types.go`, plus the `Runtime` and `Workspace`
unmarshalers).  Input nodes are modelled as JSON-shaped values; each Go
`UnmarshalJSON` method becomes a total Lean function from a node to
`Except DecodeErr T`, where `T` is the decoded Go type.  Machine
integers (`int64`, `time.Duration`) are modelled as `Int` with explicit
range checks where the Go runtime enforces them.
-/

namespace Yaml

/-- A JSON-shaped value node, as handed to the decoders by the document
parsing engine (a scalar integer, a string, a boolean, a list, an object,
or null).  Integer scalars model the `int`/`int64` dynamic cases of the
source. -/
inductive JValue where
  | null : JValue
  | bool : Bool → JValue
  | int : Int → JValue
  | str : String → JValue
  | arr : List JValue → JValue
  | obj : List (String × JValue) → JValue

/-- Whether a node is a bare string. -/
def JValue.isStr : JValue → Bool
  | .str _ => true
  | _ => false

/-- Decode failures, one constructor per error site of the source.
`typeMismatch` and `durMismatch` carry the offending element node (the
source formats it with `%v`/`%T`); `shapeMismatch` carries the literal
`errors.New` message; `unitParse` and `parseIntFail` carry the string the
unit/integer parse rejected; `unknownShorthand` carries the rejected
shorthand string. -/
inductive DecodeErr where
  | shapeMismatch : String → DecodeErr
  | typeMismatch : JValue → DecodeErr
  | durMismatch : JValue → DecodeErr
  | unitParse : String → DecodeErr
  | parseIntFail : String → DecodeErr
  | unknownShorthand : String → DecodeErr

/-- `json.Unmarshal(data, &x)` for `x : int64` (also `time.Duration`,
which is an `int64`): succeeds on an integer scalar within the signed
64-bit range; JSON `null` is a no-op success leaving the zero value. -/
def unmarshalInt64 : JValue → Option Int
  | .int n => if -(2 ^ 63) ≤ n ∧ n < 2 ^ 63 then some n else none
  | .null => some 0
  | _ => none

/-- `json.Unmarshal(data, &x)` for `x : string`: succeeds on a string
node; JSON `null` is a no-op success leaving the zero value `""`. -/
def unmarshalString : JValue → Option String
  | .str s => some s
  | .null => some ""
  | _ => none

/-- `json.Unmarshal(data, &x)` for `x : bool`: succeeds on a boolean
node; JSON `null` is a no-op success leaving the zero value `false`. -/
def unmarshalBool : JValue → Option Bool
  | .bool b => some b
  | .null => some false
  | _ => none

/-- `json.Unmarshal(data, &x)` for `x : []interface()`: succeeds on a
list node, keeping the raw element nodes; JSON `null` is a no-op success
leaving the nil slice. -/
def unmarshalList : JValue → Option (List JValue)
  | .arr xs => some xs
  | .null => some []
  | _ => none

/-- A decimal digit as a character, `'0'` through `'9'`. -/
def toDigitChar (d : Nat) : Char := Char.ofNat (48 + d)

/-- The value of a decimal digit character, if it is one. -/
def digitVal? (c : Char) : Option Nat :=
  if '0' ≤ c ∧ c ≤ '9' then some (c.toNat - 48) else none

/-- Accumulate decimal digits left to right; any non-digit rejects. -/
def parseNatCore : List Char → Nat → Option Nat
  | [], acc => some acc
  | c :: cs, acc =>
    match digitVal? c with
    | some d => parseNatCore cs (acc * 10 + d)
    | none => none

/-- The digit part of `strconv.ParseInt(s, 10, 64)` after the optional
sign: at least one digit, all digits, and the magnitude must fit the
signed 64-bit range on the requested side. -/
def parseSignedDigits (neg : Bool) (ds : List Char) : Option Int :=
  match ds with
  | [] => none
  | _ :: _ =>
    match parseNatCore ds 0 with
    | some m =>
      if neg then
        if m ≤ 2 ^ 63 then some (-(m : Int)) else none
      else
        if m ≤ 2 ^ 63 - 1 then some ((m : Int)) else none
    | none => none

/-- `strconv.ParseInt(s, 10, 64)` on the character list of `s`. -/
def parseInt64Chars : List Char → Option Int
  | [] => none
  | c :: cs =>
    if c = '-' then parseSignedDigits true cs
    else if c = '+' then parseSignedDigits false cs
    else parseSignedDigits false (c :: cs)

/-- `strconv.ParseInt(s, 10, 64)`: optional sign, base-10 digits,
signed 64-bit range check. -/
def parseInt64 (s : String) : Option Int := parseInt64Chars s.data

/-- The base-10 digit characters of a natural number, most significant
first. -/
def renderNat (n : Nat) : List Char :=
  if _h : n < 10 then [toDigitChar n]
  else renderNat (n / 10) ++ [toDigitChar (n % 10)]
termination_by n
decreasing_by
  exact Nat.div_lt_self (by omega) (by omega)

/-- The base-10 rendering of an integer: digits of its absolute value,
with a leading minus sign when negative. -/
def renderInt (n : Int) : String :=
  if n < 0 then String.mk ('-' :: renderNat n.natAbs)
  else String.mk (renderNat n.natAbs)

/-- `StringorInt` represents a string or an integer (`int64`). -/
abbrev StringorInt := Int

/-- `StringorInt.UnmarshalJSON`: first try the node as a bare integer;
otherwise try it as a string and run `strconv.ParseInt` base 10,
bit size 64, propagating the parse failure; any other shape is the
terminal `errors.New` failure. -/
def StringorInt.UnmarshalJSON (data : JValue) : Except DecodeErr StringorInt :=
  match unmarshalInt64 data with
  | some intType => .ok intType
  | none =>
    match unmarshalString data with
    | some stringType =>
      match parseInt64 stringType with
      | some intType => .ok intType
      | none => .error (.parseIntFail stringType)
    | none => .error (.shapeMismatch "failed to unmarshal string or number")

/-- The byte multiplier of a memory-unit character under binary (1024
based) prefixes. -/
def memUnitMult : Char → Option Nat
  | 'b' => some 1
  | 'B' => some 1
  | 'k' => some 1024
  | 'K' => some 1024
  | 'm' => some (1024 ^ 2)
  | 'M' => some (1024 ^ 2)
  | 'g' => some (1024 ^ 3)
  | 'G' => some (1024 ^ 3)
  | 't' => some (1024 ^ 4)
  | 'T' => some (1024 ^ 4)
  | 'p' => some (1024 ^ 5)
  | 'P' => some (1024 ^ 5)
  | _ => none

/-- The multiplier denoted by the suffix that follows the quantity: empty
means plain bytes; otherwise a unit character optionally followed by
`i`/`I` and/or a final `b`/`B`.  Anything else is unrecognized. -/
def memSuffixMult : List Char → Option Nat
  | [] => some 1
  | [c] => memUnitMult c
  | [c, 'b'] => memUnitMult c
  | [c, 'B'] => memUnitMult c
  | [c, 'i', 'b'] => memUnitMult c
  | [c, 'i', 'B'] => memUnitMult c
  | [c, 'I', 'b'] => memUnitMult c
  | [c, 'I', 'B'] => memUnitMult c
  | _ => none

/-- Modelled from the spec: `units.RAMInBytes` (external dependency, its
source is not part of this repository).  A decimal or integer quantity
followed by a unit suffix among the binary-prefix set, each meaning
`1024 ^ n` bytes relative to a plain byte, producing the exact byte
count; an unrecognized suffix or malformed quantity is rejected. -/
def ramInBytes (s : String) : Option Int :=
  let cs := s.data
  let intDigits := cs.takeWhile Char.isDigit
  let rest := cs.dropWhile Char.isDigit
  if intDigits = [] then none
  else
    match parseNatCore intDigits 0 with
    | none => none
    | some ip =>
      match rest with
      | '.' :: r =>
        let fracDigits := r.takeWhile Char.isDigit
        let rest2 := r.dropWhile Char.isDigit
        if fracDigits = [] then none
        else
          match parseNatCore fracDigits 0, memSuffixMult rest2 with
          | some fp, some mult =>
            some ((ip * mult + fp * mult / 10 ^ fracDigits.length : Nat) : Int)
          | _, _ => none
      | _ =>
        match memSuffixMult rest with
        | some mult => some ((ip * mult : Nat) : Int)
        | none => none

/-- `MemStringorInt` represents a string or an integer; the string
supports notations like `10m` for memory sizes. -/
abbrev MemStringorInt := Int

/-- `MemStringorInt.UnmarshalJSON`: first try the node as a bare integer
(an already-exact byte count); otherwise try it as a string and parse it
with `units.RAMInBytes`, propagating its failure; any other shape is the
terminal `errors.New` failure. -/
def MemStringorInt.UnmarshalJSON (data : JValue) : Except DecodeErr MemStringorInt :=
  match unmarshalInt64 data with
  | some intType => .ok intType
  | none =>
    match unmarshalString data with
    | some stringType =>
      match ramInBytes stringType with
      | some intType => .ok intType
      | none => .error (.unitParse stringType)
    | none => .error (.shapeMismatch "failed to unmarshal memory string to integer")

/-- The element loop of `toStrings`: each element must be a string; the
first non-string element aborts with the `TypeMismatch` error naming it
(the source formats the offending value and its dynamic type with
`%v`/`%T`). -/
def strAll : List JValue → Except DecodeErr (List String)
  | [] => .ok []
  | v :: vs =>
    match v with
    | .str sv => Except.map (fun r => sv :: r) (strAll vs)
    | _ => .error (.typeMismatch v)

/-- `toStrings`: an empty list yields the nil (empty) sequence; otherwise
every element must be a string, in order. -/
def toStrings (s : List JValue) : Except DecodeErr (List String) :=
  if s.length = 0 then .ok [] else strAll s

/-- `Stringorslice` represents a string or an array of strings. -/
abbrev Stringorslice := List String

/-- `Stringorslice.UnmarshalJSON`: first try the node as a single string,
producing a one-element sequence; otherwise try it as a list and convert
via `toStrings`; any other shape is the terminal `errors.New` failure. -/
def Stringorslice.UnmarshalJSON (data : JValue) : Except DecodeErr Stringorslice :=
  match unmarshalString data with
  | some stringType => .ok [stringType]
  | none =>
    match unmarshalList data with
    | some sliceType => toStrings sliceType
    | none => .error (.shapeMismatch "failed to unmarshal string or string array")

/-- A `time.Duration`: a count of elapsed nanoseconds (`int64`). -/
abbrev Duration := Int

/-- The nanosecond multiplier of a duration unit suffix. -/
def durUnitMult : List Char → Option Nat
  | ['n', 's'] => some 1
  | ['u', 's'] => some 1000
  | ['m', 's'] => some 1000000
  | ['s'] => some 1000000000
  | ['m'] => some 60000000000
  | ['h'] => some 3600000000000
  | _ => none

/-- Modelled from the spec: `time.ParseDuration` (standard library, its
source is not part of this repository) on a duration literal — a numeric
magnitude plus a time-unit suffix, e.g. `5s`, `10m` — giving the denoted
count of nanoseconds; anything else is rejected. -/
def parseDuration (s : String) : Option Duration :=
  let cs := s.data
  let ds := cs.takeWhile Char.isDigit
  let rest := cs.dropWhile Char.isDigit
  if ds = [] then none
  else
    match parseNatCore ds 0, durUnitMult rest with
    | some n, some mult => some ((n * mult : Nat) : Int)
    | _, _ => none

/-- The element loop of `toDurations`: a string element is parsed with
`time.ParseDuration` (failure aborts with the error naming the element);
an integer element (`int`/`int64` cases of the source's type switch) is
cast directly with `time.Duration(int64(v))`, i.e. taken as a
nanosecond count with no unit conversion; any other element shape aborts
with the error naming the element. -/
def durAll : List JValue → Except DecodeErr (List Duration)
  | [] => .ok []
  | i :: rest =>
    match i with
    | .str v =>
      match parseDuration v with
      | some dur => Except.map (fun r => dur :: r) (durAll rest)
      | none => .error (.durMismatch i)
    | .int v => Except.map (fun r => v :: r) (durAll rest)
    | _ => .error (.durMismatch i)

/-- `toDurations`: an empty list yields the nil (empty) sequence;
otherwise convert each element in order via the element loop. -/
def toDurations (s : List JValue) : Except DecodeErr (List Duration) :=
  if s.length = 0 then .ok [] else durAll s

/-- `Durationorslice` represents a duration or an array of durations. -/
abbrev Durationorslice := List Duration

/-- `Durationorslice.UnmarshalJSON`: first unmarshal the node into a
`time.Duration` variable — which, `time.Duration` being an `int64` with
no unmarshaler of its own, accepts exactly a bare integer (nanoseconds),
not a duration string — producing a one-element sequence; otherwise try
the node as a list and convert via `toDurations`; any other shape is the
terminal `errors.New` failure. -/
def Durationorslice.UnmarshalJSON (data : JValue) : Except DecodeErr Durationorslice :=
  match unmarshalInt64 data with
  | some stringType => .ok [stringType]
  | none =>
    match unmarshalList data with
    | some sliceType => toDurations sliceType
    | none => .error (.shapeMismatch "failed to unmarshal duration string or duration array")

/-- Modelled from the spec: `RuntimeCloud` is an opaque nested
configuration whose own source is not under src/; only its
default-constructed value matters here. -/
inductive RuntimeCloud where
  | mk : RuntimeCloud

/-- Modelled from the spec: `RuntimeKubernetes` is an opaque nested
configuration whose own source is not under src/. -/
inductive RuntimeKubernetes where
  | mk : RuntimeKubernetes

/-- Modelled from the spec: `RuntimeInstance` (the `vm` slot) is an
opaque nested configuration whose own source is not under src/. -/
inductive RuntimeInstance where
  | mk : RuntimeInstance

/-- `Runtime` configures the runtime environment: three pointer slots
for nested configurations plus the `shell` boolean flag. -/
structure Runtime where
  cloud : Option RuntimeCloud := none
  kubernetes : Option RuntimeKubernetes := none
  vm : Option RuntimeInstance := none
  shell : Bool := false

/-- The zero value of `Runtime` (a freshly allocated receiver). -/
def Runtime.zero : Runtime := {}

/-- Modelled from the spec: decoding a JSON field into a `*RuntimeCloud`
pointer — an object allocates and fills the opaque nested value, `null`
sets the pointer to nil, any other node is a type error. -/
def cloudFieldDecode : JValue → Option (Option RuntimeCloud)
  | .obj _ => some (some .mk)
  | .null => some none
  | _ => none

/-- Modelled from the spec: decoding a JSON field into a
`*RuntimeKubernetes` pointer. -/
def kubernetesFieldDecode : JValue → Option (Option RuntimeKubernetes)
  | .obj _ => some (some .mk)
  | .null => some none
  | _ => none

/-- Modelled from the spec: decoding a JSON field into a
`*RuntimeInstance` pointer. -/
def vmFieldDecode : JValue → Option (Option RuntimeInstance)
  | .obj _ => some (some .mk)
  | .null => some none
  | _ => none

/-- One field of the anonymous `out2` struct of `Runtime.UnmarshalJSON`:
recognized keys decode into their slot, unknown keys are ignored, and a
field whose value has the wrong type marks the whole unmarshal as failed
while later fields keep decoding (Go records the first type error and
continues). -/
def runtimeFieldStep (acc : Runtime × Bool) (kv : String × JValue) : Runtime × Bool :=
  match kv with
  | ("cloud", x) =>
    match cloudFieldDecode x with
    | some c => ({ acc.1 with cloud := c }, acc.2)
    | none => (acc.1, false)
  | ("kubernetes", x) =>
    match kubernetesFieldDecode x with
    | some c => ({ acc.1 with kubernetes := c }, acc.2)
    | none => (acc.1, false)
  | ("vm", x) =>
    match vmFieldDecode x with
    | some c => ({ acc.1 with vm := c }, acc.2)
    | none => (acc.1, false)
  | ("shell", .bool b) => ({ acc.1 with shell := b }, acc.2)
  | ("shell", .null) => acc
  | ("shell", _) => (acc.1, false)
  | _ => acc

/-- `json.Unmarshal(data, &out2)` for the anonymous `Runtime`-shaped
struct: the resulting struct value together with whether the unmarshal
succeeded (the error value itself is only ever tested against nil by the
caller, so a boolean suffices). -/
def runtimeObjDecode (data : JValue) : Runtime × Bool :=
  match data with
  | .obj fields => fields.foldl runtimeFieldStep (Runtime.zero, true)
  | .null => (Runtime.zero, true)
  | _ => (Runtime.zero, false)

/-- The `switch out1` block of `Runtime.UnmarshalJSON`: a recognized
shorthand keyword populates exactly its slot with a default-constructed
value (`shell` sets the flag); anything else is the
`unknown runtime type` error. -/
def runtimeShorthand (out1 : String) : Except DecodeErr Runtime :=
  match out1 with
  | "cloud" => .ok { cloud := some .mk }
  | "vm" => .ok { vm := some .mk }
  | "kubernetes" => .ok { kubernetes := some .mk }
  | "shell" => .ok { shell := true }
  | _ => .error (.unknownShorthand out1)

/-- `Runtime.UnmarshalJSON`, translated as written: the shorthand switch
sits in the `err != nil` branch of the string unmarshal (so it runs only
when the node is NOT a string, with `out1` still its zero value `""`),
and the object branch assigns `out2` only when the struct unmarshal
FAILED, returning `err` — which is nil there — when it succeeded, with
the receiver left at its zero value. -/
def Runtime.UnmarshalJSON (data : JValue) : Except DecodeErr Runtime :=
  match unmarshalString data with
  | none => runtimeShorthand ""
  | some _ =>
    match runtimeObjDecode data with
    | (out2, false) => .ok out2
    | (_, true) => .ok Runtime.zero

/-- `Workspace`: `disabled` boolean plus `path` string (empty = unset). -/
structure Workspace where
  disabled : Bool := false
  path : String := ""

/-- The zero value of `Workspace` (a freshly allocated receiver). -/
def Workspace.zero : Workspace := {}

/-- One field of the anonymous `out2` struct of
`Workspace.UnmarshalJSON`: `disabled` must be a boolean, `path` must be
a string, unknown keys are ignored, `null` leaves a field untouched; a
wrongly-typed field marks the unmarshal as failed. -/
def workspaceFieldStep (acc : Workspace × Bool) (kv : String × JValue) : Workspace × Bool :=
  match kv with
  | ("disabled", .bool b) => ({ acc.1 with disabled := b }, acc.2)
  | ("disabled", .null) => acc
  | ("disabled", _) => (acc.1, false)
  | ("path", .str s) => ({ acc.1 with path := s }, acc.2)
  | ("path", .null) => acc
  | ("path", _) => (acc.1, false)
  | _ => acc

/-- `json.Unmarshal(data, &out2)` for the anonymous `Workspace`-shaped
struct, as a value plus success flag. -/
def workspaceObjDecode (data : JValue) : Workspace × Bool :=
  match data with
  | .obj fields => fields.foldl workspaceFieldStep (Workspace.zero, true)
  | .null => (Workspace.zero, true)
  | _ => (Workspace.zero, false)

/-- `Workspace.UnmarshalJSON`, translated as written: when the boolean
unmarshal FAILS (`err != nil`), the receiver gets `Disabled = !out1`
with `out1` still its zero value `false`; when it succeeds, the struct
unmarshal is attempted, assigning `out2` only on its FAILURE and
returning the nil `err` (receiver untouched) on its success. -/
def Workspace.UnmarshalJSON (data : JValue) : Except DecodeErr Workspace :=
  match unmarshalBool data with
  | none => .ok { disabled := !false, path := "" }
  | some _ =>
    match workspaceObjDecode data with
    | (out2, false) => .ok out2
    | (_, true) => .ok Workspace.zero

end Yaml

namespace Yaml

theorem digitVal_toDigitChar (d : Nat) (h : d < 10) :
    digitVal? (toDigitChar d) = some d := by
  interval_cases d <;> decide

theorem toDigitChar_not_sign (d : Nat) (h : d < 10) :
    toDigitChar d ≠ '-' ∧ toDigitChar d ≠ '+' := by
  interval_cases d <;> exact ⟨by decide, by decide⟩

theorem parseNatCore_append (xs ys : List Char) (acc : Nat) :
    parseNatCore (xs ++ ys) acc =
      match parseNatCore xs acc with
      | some m => parseNatCore ys m
      | none => none := by
  induction xs generalizing acc with
  | nil => rfl
  | cons c cs ih =>
    simp only [List.cons_append, parseNatCore]
    cases digitVal? c with
    | none => rfl
    | some d => exact ih _

theorem parseNatCore_renderNat (n : Nat) : ∀ acc : Nat,
    parseNatCore (renderNat n) acc = some (acc * 10 ^ (renderNat n).length + n) := by
  induction n using renderNat.induct with
  | case1 n h =>
    intro acc
    rw [renderNat]
    simp [h, parseNatCore, digitVal_toDigitChar n h]
  | case2 n h ih =>
    intro acc
    rw [renderNat]
    simp only [h, dite_false, dif_neg, not_false_iff]
    rw [parseNatCore_append, ih acc]
    have hm : n % 10 < 10 := Nat.mod_lt n (by omega)
    simp only [parseNatCore, digitVal_toDigitChar (n % 10) hm, List.length_append,
      List.length_singleton]
    have hmod : n / 10 * 10 + n % 10 = n := by omega
    generalize (renderNat (n / 10)).length = L
    generalize n / 10 = q at hmod
    generalize n % 10 = r at hmod
    rw [← hmod]
    congr 1
    ring

theorem renderNat_head (n : Nat) :
    ∃ d rest, renderNat n = toDigitChar d :: rest ∧ d < 10 := by
  induction n using renderNat.induct with
  | case1 n h =>
    refine ⟨n, [], ?_, h⟩
    rw [renderNat]
    simp [h]
  | case2 n h ih =>
    obtain ⟨d, rest, hq, hdlt⟩ := ih
    refine ⟨d, rest ++ [toDigitChar (n % 10)], ?_, hdlt⟩
    rw [renderNat]
    simp [h, hq]

theorem parseSignedDigits_renderNat (b : Bool) (m : Nat) :
    parseSignedDigits b (renderNat m) =
      if b then (if m ≤ 2 ^ 63 then some (-(m : Int)) else none)
      else (if m ≤ 2 ^ 63 - 1 then some ((m : Int)) else none) := by
  obtain ⟨d, rest, hd, hdlt⟩ := renderNat_head m
  rw [hd]
  simp only [parseSignedDigits]
  rw [← hd, parseNatCore_renderNat m 0]
  simp only [Nat.zero_mul, Nat.zero_add]

theorem parseInt64_renderInt (n : Int) (h1 : -(2 ^ 63) ≤ n) (h2 : n < 2 ^ 63) :
    parseInt64 (renderInt n) = some n := by
  unfold renderInt parseInt64
  by_cases hn : n < 0
  · rw [if_pos hn]
    show parseInt64Chars ('-' :: renderNat n.natAbs) = some n
    simp only [parseInt64Chars, if_pos rfl]
    rw [parseSignedDigits_renderNat]
    have hm : n.natAbs ≤ 2 ^ 63 := by omega
    simp only [if_true, if_pos hm]
    congr 1
    omega
  · rw [if_neg hn]
    show parseInt64Chars (renderNat n.natAbs) = some n
    obtain ⟨d, rest, hd, hdlt⟩ := renderNat_head n.natAbs
    obtain ⟨hne1, hne2⟩ := toDigitChar_not_sign d hdlt
    rw [hd]
    simp only [parseInt64Chars, if_neg hne1, if_neg hne2]
    rw [← hd, parseSignedDigits_renderNat]
    have hm : n.natAbs ≤ 2 ^ 63 - 1 := by omega
    simp only [Bool.false_eq_true, if_false, if_pos hm]
    congr 1
    omega

end Yaml

namespace Yaml

theorem unmarshalInt64_int (n : Int) (h1 : -(2 ^ 63) ≤ n) (h2 : n < 2 ^ 63) :
    unmarshalInt64 (.int n) = some n := by
  show (if -(2 ^ 63) ≤ n ∧ n < 2 ^ 63 then some n else none) = some n
  rw [if_pos ⟨h1, h2⟩]

theorem strAll_map_str (ss : List String) :
    strAll (ss.map JValue.str) = .ok ss := by
  induction ss with
  | nil => rfl
  | cons a t ih =>
    show Except.map (fun r => a :: r) (strAll (List.map JValue.str t)) =
      Except.ok (a :: t)
    rw [ih]
    rfl

theorem strAll_first_bad (xs : List JValue) (h : ∃ v ∈ xs, v.isStr = false) :
    ∃ v ∈ xs, v.isStr = false ∧ strAll xs = .error (.typeMismatch v) := by
  induction xs with
  | nil => simp at h
  | cons a rest ih =>
    cases a with
    | str s =>
      have h' : ∃ v ∈ rest, v.isStr = false := by
        rcases h with ⟨v, hv, hfalse⟩
        rcases List.mem_cons.mp hv with rfl | hmem
        · simp [JValue.isStr] at hfalse
        · exact ⟨v, hmem, hfalse⟩
      rcases ih h' with ⟨v, hmem, hfalse, herr⟩
      exact ⟨v, List.mem_cons_of_mem _ hmem, hfalse,
        by simp [strAll, herr, Except.map]⟩
    | null => exact ⟨.null, List.mem_cons_self _ _, rfl, rfl⟩
    | bool b => exact ⟨.bool b, List.mem_cons_self _ _, rfl, rfl⟩
    | int n => exact ⟨.int n, List.mem_cons_self _ _, rfl, rfl⟩
    | arr l => exact ⟨.arr l, List.mem_cons_self _ _, rfl, rfl⟩
    | obj l => exact ⟨.obj l, List.mem_cons_self _ _, rfl, rfl⟩

theorem durAll_map_int (ks : List Int) :
    durAll (ks.map JValue.int) = .ok ks := by
  induction ks with
  | nil => rfl
  | cons a t ih =>
    show Except.map (fun r => a :: r) (durAll (List.map JValue.int t)) =
      Except.ok (a :: t)
    rw [ih]
    rfl

/-- Claim C1, evaluated on the code at the failing inputs: the decoder as
written returns SUCCESS with every slot empty for the bare string `"vm"`
(instead of populating the `vm` slot), and likewise returns success with
every slot empty for the unrecognized bare string `"bogus"` (instead of
an UnknownShorthand failure) — the shorthand switch sits in the inverted
`err` branch and is unreachable for string input. -/
theorem claimC1_runtime_shorthand_eval :
    Runtime.UnmarshalJSON (.str "vm") = .ok Runtime.zero ∧
    Runtime.UnmarshalJSON (.str "bogus") = .ok Runtime.zero := ⟨rfl, rfl⟩

/-- Claim C2, evaluated on the code at the failing input: decoding the
bare boolean `false` yields `disabled = false` (the zero value of the
struct branch), not the claimed negation `disabled = true`; `true` also
yields `disabled = false`, agreeing with the claim only by accident of
the zero value. -/
theorem claimC2_workspace_bool_eval :
    Workspace.UnmarshalJSON (.bool true) = .ok { disabled := false, path := "" } ∧
    Workspace.UnmarshalJSON (.bool false) = .ok { disabled := false, path := "" } :=
  ⟨rfl, rfl⟩

/-- Claim C3, evaluated on the code at the failing input: decoding the
single string node `"10s"` does not yield a one-element sequence of 10
seconds; it fails with the terminal shape error, because the singular
branch unmarshals into a `time.Duration` (an `int64`), which accepts
only a bare integer, never a duration string. -/
theorem claimC3_duration_single_string_eval :
    Durationorslice.UnmarshalJSON (.str "10s") =
      .error (.shapeMismatch "failed to unmarshal duration string or duration array") :=
  rfl

/-- Claim C4, evaluated on the code at the failing input: decoding the
object node with a `kubernetes` key does not populate the kubernetes
slot; it fails with the `unknown runtime type` error carrying the empty
string, because a non-string node lands in the inverted `err` branch
where the shorthand switch sees the zero value of `out1`. -/
theorem claimC4_runtime_object_eval :
    Runtime.UnmarshalJSON (.obj [("kubernetes", .obj [])]) =
      .error (.unknownShorthand "") := rfl

/-- Claim C5: every bare-integer element of a list node is accepted by
the DurationOrList decoder and converted to exactly that count of the
internal representation unit (nanoseconds) — the identity cast
`time.Duration(int64(v))`, with no unit conversion applied. -/
theorem claimC5_bare_int_durations (ks : List Int) :
    toDurations (ks.map JValue.int) = .ok ks ∧
    Durationorslice.UnmarshalJSON (.arr (ks.map JValue.int)) = .ok ks := by
  have ht : toDurations (ks.map JValue.int) = .ok ks := by
    cases ks with
    | nil => rfl
    | cons a t => exact durAll_map_int (a :: t)
  exact ⟨ht, ht⟩

/-- Claim C6: for every signed 64-bit integer `n`, decoding the bare
number node `n` and decoding the string node holding the base-10
rendering of `n` both succeed with the same value `n`. -/
theorem claimC6_number_string_agree (n : Int)
    (h1 : -(2 ^ 63) ≤ n) (h2 : n < 2 ^ 63) :
    StringorInt.UnmarshalJSON (.int n) = .ok n ∧
    StringorInt.UnmarshalJSON (.str (renderInt n)) = .ok n := by
  constructor
  · unfold StringorInt.UnmarshalJSON
    rw [unmarshalInt64_int n h1 h2]
  · have hp := parseInt64_renderInt n h1 h2
    simp [StringorInt.UnmarshalJSON, unmarshalInt64, unmarshalString, hp]

/-- Witness for claim C6 at the concrete input 42. -/
theorem claimC6_number_string_agree_witness :
    (-(2 ^ 63) ≤ (42 : Int)) ∧ ((42 : Int) < 2 ^ 63) ∧
      (StringorInt.UnmarshalJSON (.int 42) = .ok 42 ∧
       StringorInt.UnmarshalJSON (.str (renderInt 42)) = .ok 42) :=
  ⟨by decide, by decide, claimC6_number_string_agree 42 (by decide) (by decide)⟩

/-- Claim C7: the ByteSize decoder maps the string `"1g"` to exactly
`1073741824`, maps the bare number `1073741824` to the same value with
no unit conversion, and rejects the string `"1x"` with a UnitParse
error. -/
theorem claimC7_bytesize_eval :
    MemStringorInt.UnmarshalJSON (.str "1g") = .ok 1073741824 ∧
    MemStringorInt.UnmarshalJSON (.int 1073741824) = .ok 1073741824 ∧
    MemStringorInt.UnmarshalJSON (.str "1x") = .error (.unitParse "1x") :=
  ⟨rfl, rfl, rfl⟩

/-- Claim C8: the StringOrList decoder maps a single string node to the
one-element sequence holding it, maps a list of string nodes to exactly
those strings in source order, and maps the empty list to the empty
sequence. -/
theorem claimC8_stringorslice (s : String) (ss : List String) :
    Stringorslice.UnmarshalJSON (.str s) = .ok [s] ∧
    Stringorslice.UnmarshalJSON (.arr (ss.map JValue.str)) = .ok ss ∧
    Stringorslice.UnmarshalJSON (.arr []) = .ok [] := by
  refine ⟨rfl, ?_, rfl⟩
  cases ss with
  | nil => rfl
  | cons a t => exact strAll_map_str (a :: t)

/-- Claim C9: if any element of a list node is not a string, the whole
StringOrList decode fails with a single TypeMismatch error naming an
offending non-string element of the list, and no sequence (partial or
otherwise) is produced. -/
theorem claimC9_typemismatch (xs : List JValue)
    (h : ∃ v ∈ xs, v.isStr = false) :
    ∃ v ∈ xs, v.isStr = false ∧
      Stringorslice.UnmarshalJSON (.arr xs) = .error (.typeMismatch v) := by
  rcases strAll_first_bad xs h with ⟨v, hmem, hfalse, herr⟩
  refine ⟨v, hmem, hfalse, ?_⟩
  cases xs with
  | nil => exact absurd hmem (List.not_mem_nil v)
  | cons a t => exact herr

/-- Witness for claim C9 at the concrete input `[1, 2]`. -/
theorem claimC9_typemismatch_witness :
    ∃ v ∈ [JValue.int 1, JValue.int 2], v.isStr = false ∧
      Stringorslice.UnmarshalJSON (.arr [JValue.int 1, JValue.int 2]) =
        .error (.typeMismatch v) :=
  claimC9_typemismatch [JValue.int 1, JValue.int 2] (by decide)

/-- Claim C10: the Workspace decoder never fails — every input node of
any shape decodes successfully to some Workspace record (each branch of
the method, including the inverted ones, returns a nil error). -/
theorem claimC10_workspace_total (data : JValue) :
    ∃ w, Workspace.UnmarshalJSON data = .ok w := by
  unfold Workspace.UnmarshalJSON
  cases unmarshalBool data with
  | none => exact ⟨_, rfl⟩
  | some b =>
    rcases workspaceObjDecode data with ⟨out2, ok⟩
    cases ok
    · exact ⟨out2, rfl⟩
    · exact ⟨Workspace.zero, rfl⟩

end Yaml
